import Mathlib

/-!
Shallow embedding of `gym_light`'s `SingleLightEnv`
(`src/gym_light/envs/single_light_env.py`), together with theorems settling
the spec's claims about the position/energy update, the termination and
reward policy, the distance computation, the invalid-action check, and the
frame effects of `step` and `reset`.

The environment object carries four mutable instance fields that the core
simulation logic reads or writes: `current_position`, `current_energy`, the
stored observation vector `state` (initialised to `None` in `__init__`), and
the post-terminal diagnostic counter `steps_beyond_done` (initialised to
`None`).  The configuration values are instance fields set in `__init__` to
fixed constants; they are modelled as top-level constants.  Python floats are
modelled as real numbers, Python ints as integers, `None`-able fields as
`Option`.  The random source used by `reset` is an external collaborator
(gym's `np_random`); its draws are passed to `reset` explicitly.
-/

namespace GymLight

/-- The 8-component observation vector (`Box(8)`). -/
def Obs : Type := Fin 8 → ℝ

/-- `self.light_source_pos = (25, 25)`. -/
def light_source_pos : ℤ × ℤ := (25, 25)

/-- `self.d_energy = 1` (the spec's `energy_delta`). -/
def d_energy : ℤ := 1

/-- `self.min_energy = 0`. -/
def min_energy : ℤ := 0

/-- `self.max_episode_length = 4000`. -/
def max_episode_length : ℤ := 4000

/-- `self.max_light_distance = 200`. -/
def max_light_distance : ℤ := 200

/-- `self.distance_episode_length = 50` (the hysteresis window). -/
def distance_episode_length : ℤ := 50

/-- `self.min_light_distance = 10`. -/
def min_light_distance : ℤ := 10

/-- `self.starting_energy = 25`. -/
def starting_energy : ℤ := 25

/-- `self.starting_position = (10, 10)`. -/
def starting_position : ℤ × ℤ := (10, 10)

/-- The mutable instance fields of `SingleLightEnv` that the simulation
logic reads or writes. -/
structure EnvState where
  current_position : ℤ × ℤ
  current_energy : ℤ
  state : Option Obs
  steps_beyond_done : Option ℕ

/-- The state right after `__init__`: position and energy at their starting
values, `self.state = None`, `self.steps_beyond_done = None`. -/
def initial_env : EnvState :=
  { current_position := starting_position
    current_energy := starting_energy
    state := none
    steps_beyond_done := none }

/-- `SingleLightEnv.distance(p1, p2)`:
`math.sqrt((p2[0] - p1[0]) ** 2 + (p2[1] - p1[1]) ** 2)`. -/
noncomputable def distance (p1 p2 : ℤ × ℤ) : ℝ :=
  Real.sqrt ((((p2.1 - p1.1) ^ 2 + (p2.2 - p1.2) ^ 2 : ℤ) : ℝ))

/-- The integer radicand of `distance` (the squared Euclidean distance),
used to decide the real comparisons of the termination predicate. -/
def distSq (p1 p2 : ℤ × ℤ) : ℤ :=
  (p2.1 - p1.1) ^ 2 + (p2.2 - p1.2) ^ 2

/-- `self.distance_from_light()`: distance of `current_position` from
`light_source_pos`. -/
noncomputable def distance_from_light (s : EnvState) : ℝ :=
  distance s.current_position light_source_pos

/-- The proposition decided by `_is_episode_terminated`:
`self.current_energy <= self.min_energy or dist < self.min_light_distance
or dist > self.max_light_distance`. -/
def episodeTerminationCond (s : EnvState) : Prop :=
  s.current_energy ≤ min_energy
    ∨ distance_from_light s < (min_light_distance : ℝ)
    ∨ distance_from_light s > (max_light_distance : ℝ)

/-- The termination condition is decidable: the real square-root
comparisons are equivalent to integer comparisons on the squared
distance. -/
instance decEpisodeTerminationCond (s : EnvState) :
    Decidable (episodeTerminationCond s) :=
  decidable_of_iff
    (s.current_energy ≤ min_energy
      ∨ distSq s.current_position light_source_pos < min_light_distance ^ 2
      ∨ max_light_distance ^ 2 < distSq s.current_position light_source_pos)
    (by
      have hlt : distance_from_light s < ((min_light_distance : ℤ) : ℝ)
          ↔ distSq s.current_position light_source_pos < min_light_distance ^ 2 := by
        rw [show distance_from_light s
              = Real.sqrt ((distSq s.current_position light_source_pos : ℝ)) from rfl,
          Real.sqrt_lt' (by norm_num [min_light_distance])]
        exact_mod_cast Iff.rfl
      have hgt : ((max_light_distance : ℤ) : ℝ) < distance_from_light s
          ↔ max_light_distance ^ 2 < distSq s.current_position light_source_pos := by
        rw [show distance_from_light s
              = Real.sqrt ((distSq s.current_position light_source_pos : ℝ)) from rfl,
          Real.lt_sqrt (by norm_num [max_light_distance])]
        exact_mod_cast Iff.rfl
      unfold episodeTerminationCond
      rw [gt_iff_lt, hlt, hgt])

/-- `self._is_episode_terminated()`: returns `bool(done)` where
`done = self.current_energy <= self.min_energy or dist <
self.min_light_distance or dist > self.max_light_distance`
(the code's comment says "ignoring hysteresis for now"). -/
def is_episode_terminated (s : EnvState) : Bool :=
  decide (episodeTerminationCond s)

/-- The error raised by the `assert self.action_space.contains(action)`
precondition check at the top of `step`. -/
inductive StepError
  | invalidAction
deriving DecidableEq

/-- The 4-tuple returned by `step`:
`np.array(self.state), reward, done, {}`. -/
structure StepResult where
  observation : Option Obs
  reward : ℝ
  done : Bool
  info : Unit

/-- `SingleLightEnv.step(action)`.  The `assert` on
`action_space.contains(action)` (the `Discrete(8)` membership test, an
integer with `0 <= action < 8`) is modelled as an error result; the state
component of the returned pair is the environment state after the call
(unchanged when the assertion fires, since the assert precedes every
effect). -/
def step (s : EnvState) (action : ℤ) : Except StepError StepResult × EnvState :=
  if 0 ≤ action ∧ action < 8 then
    let done := is_episode_terminated s
    if done = false then
      (Except.ok ⟨s.state, 1, done, ()⟩, s)
    else
      match s.steps_beyond_done with
      | none =>
          (Except.ok ⟨s.state, 1, done, ()⟩, { s with steps_beyond_done := some 0 })
      | some n =>
          (Except.ok ⟨s.state, 0, done, ()⟩, { s with steps_beyond_done := some (n + 1) })
  else
    (Except.error StepError.invalidAction, s)

/-- The post-call environment state of `step`. -/
def stepState (s : EnvState) (action : ℤ) : EnvState := (step s action).2

/-- `SingleLightEnv.reset()`:
`self.state = self.np_random.random.uniform(low=0.0, high=0.05, size=(8,))`.
The 8 random draws come from the external random source and are passed
explicitly as `draws`; the method body assigns them to `self.state` and
returns `None` (modelled as `Unit`). -/
def reset (s : EnvState) (draws : Obs) : Unit × EnvState :=
  ((), { s with state := some draws })

/-- A reachable terminated state: the agent at its starting position with
its energy run down to `0` (each step was supposed to cost `d_energy = 1`),
observation and post-terminal counter still at their `__init__` values. -/
def sTerm : EnvState :=
  { current_position := (10, 10)
    current_energy := 0
    state := none
    steps_beyond_done := none }

/-- A terminated state on which `step` has already been called several
times, so the post-terminal counter is set. -/
def sPost : EnvState :=
  { current_position := (10, 10)
    current_energy := 0
    state := none
    steps_beyond_done := some 3 }

/-- An all-zero observation vector (a possible draw of the sampler, used as
a concrete input to `reset`). -/
def zeroObs : Obs := fun _ => 0

/-- A point of the integer grid as a point of the Euclidean plane. -/
noncomputable def toE2 (p : ℤ × ℤ) : EuclideanSpace ℝ (Fin 2) :=
  (WithLp.equiv 2 (Fin 2 → ℝ)).symm ![(p.1 : ℝ), (p.2 : ℝ)]

theorem step_snd_position (s : EnvState) (a : ℤ) :
    (step s a).2.current_position = s.current_position := by
  simp only [step]
  split
  · split
    · rfl
    · split <;> rfl
  · rfl

theorem step_snd_energy (s : EnvState) (a : ℤ) :
    (step s a).2.current_energy = s.current_energy := by
  simp only [step]
  split
  · split
    · rfl
    · split <;> rfl
  · rfl

theorem step_snd_state (s : EnvState) (a : ℤ) :
    (step s a).2.state = s.state := by
  simp only [step]
  split
  · split
    · rfl
    · split <;> rfl
  · rfl

theorem step_fst_ok_done (s : EnvState) (a : ℤ) (res : StepResult)
    (h : (step s a).1 = Except.ok res) : res.done = is_episode_terminated s := by
  simp only [step] at h
  split at h
  · split at h
    · cases h
      rfl
    · split at h <;> (cases h; rfl)
  · cases h

theorem step_fst_ok_observation (s : EnvState) (a : ℤ) (res : StepResult)
    (h : (step s a).1 = Except.ok res) : res.observation = s.state := by
  simp only [step] at h
  split at h
  · split at h
    · cases h
      rfl
    · split at h <;> (cases h; rfl)
  · cases h

theorem is_episode_terminated_congr (s s' : EnvState)
    (hp : s'.current_position = s.current_position)
    (he : s'.current_energy = s.current_energy) :
    is_episode_terminated s' = is_episode_terminated s := by
  unfold is_episode_terminated
  rw [decide_eq_decide]
  unfold episodeTerminationCond distance_from_light
  rw [hp, he]

theorem is_episode_terminated_stepState (s : EnvState) (a : ℤ) :
    is_episode_terminated (stepState s a) = is_episode_terminated s :=
  is_episode_terminated_congr _ _ (step_snd_position s a) (step_snd_energy s a)

theorem is_episode_terminated_foldl (l : List ℤ) (s : EnvState) :
    is_episode_terminated (l.foldl stepState s) = is_episode_terminated s := by
  induction l generalizing s with
  | nil => rfl
  | cons a l ih =>
      rw [List.foldl_cons, ih, is_episode_terminated_stepState]

theorem step_eq_cases (s : EnvState) (a : ℤ) (h : 0 ≤ a ∧ a < 8) :
    (is_episode_terminated s = false ∧
       step s a = (Except.ok ⟨s.state, 1, is_episode_terminated s, ()⟩, s))
    ∨ (is_episode_terminated s = true ∧ s.steps_beyond_done = none ∧
       step s a = (Except.ok ⟨s.state, 1, is_episode_terminated s, ()⟩,
         { s with steps_beyond_done := some 0 }))
    ∨ (∃ n, is_episode_terminated s = true ∧ s.steps_beyond_done = some n ∧
       step s a = (Except.ok ⟨s.state, 0, is_episode_terminated s, ()⟩,
         { s with steps_beyond_done := some (n + 1) })) := by
  by_cases hd : is_episode_terminated s = false
  · exact Or.inl ⟨hd, by simp [step, h, hd]⟩
  · have hd' : is_episode_terminated s = true := by
      cases hh : is_episode_terminated s
      · exact absurd hh hd
      · rfl
    cases hsb : s.steps_beyond_done with
    | none => exact Or.inr (Or.inl ⟨hd', rfl, by simp [step, h, hd', hsb]⟩)
    | some n => exact Or.inr (Or.inr ⟨n, hd', rfl, by simp [step, h, hd', hsb]⟩)

theorem step_valid_of_ok (s : EnvState) (a : ℤ) (res : StepResult) (s' : EnvState)
    (h : step s a = (Except.ok res, s')) : 0 ≤ a ∧ a < 8 := by
  by_contra hv
  rw [step, if_neg hv] at h
  exact absurd (congrArg Prod.fst h) (by simp)

/-- C1: the claim says `step` moves the agent one unit in the chosen compass
direction.  The code never writes `current_position`: from the initial state
every one of the 8 valid actions leaves the position at `(10, 10)` (a change
of `(0, 0)`, which is none of the 8 unit/diagonal offsets), while the call
itself succeeds normally. -/
theorem step_never_moves_agent :
    (∀ a : Fin 8, (step initial_env (a : ℤ)).2.current_position = initial_env.current_position)
    ∧ initial_env.current_position = (10, 10)
    ∧ (step initial_env 0).1 = Except.ok (StepResult.mk none 1 false ()) :=
  ⟨by decide, rfl, rfl⟩

/-- C2: the claim says `step` subtracts `energy_delta` from the energy
(adding it back within `min_light_distance` of the light).  The code never
writes `current_energy`: from the initial state (distance to the light
about `21.2`, far outside `min_light_distance = 10`) every one of the 8
valid actions leaves the energy at `25` instead of `25 - 1 = 24`. -/
theorem step_never_changes_energy :
    (∀ a : Fin 8, (step initial_env (a : ℤ)).2.current_energy = 25)
    ∧ initial_env.current_energy = 25
    ∧ (step initial_env 1).1 = Except.ok (StepResult.mk none 1 false ()) :=
  ⟨by decide, rfl, rfl⟩

/-- C3: `_is_episode_terminated` returns `true` iff
`current_energy <= min_energy`, or `distance_from_light() <
min_light_distance`, or `distance_from_light() > max_light_distance`; the
right-hand side mentions neither `max_episode_length` nor
`distance_episode_length`. -/
theorem is_episode_terminated_iff_thresholds (s : EnvState) :
    is_episode_terminated s = true
      ↔ (s.current_energy ≤ min_energy
          ∨ distance_from_light s < (min_light_distance : ℝ)
          ∨ distance_from_light s > (max_light_distance : ℝ)) := by
  unfold is_episode_terminated
  exact decide_eq_true_iff

/-- C4: on every successful `step` call the reward is `1.0` when the
termination predicate is false, `1.0` on the first call observing
termination (the post-terminal counter `steps_beyond_done` still `None`),
`0.0` on every subsequent call while terminated (the counter already set),
and the reward never takes a value other than `0.0` or `1.0`. -/
theorem step_reward_policy (s : EnvState) (a : ℤ) (res : StepResult) (s' : EnvState)
    (h : step s a = (Except.ok res, s')) :
    (res.reward = 1 ∨ res.reward = 0)
    ∧ (res.done = false → res.reward = 1)
    ∧ (res.done = true → s.steps_beyond_done = none → res.reward = 1)
    ∧ (∀ n : ℕ, res.done = true → s.steps_beyond_done = some n → res.reward = 0) := by
  have hv := step_valid_of_ok s a res s' h
  rcases step_eq_cases s a hv with ⟨hd, he⟩ | ⟨hd, hsb, he⟩ | ⟨n, hd, hsb, he⟩
  · rw [he] at h
    simp only [Prod.mk.injEq, Except.ok.injEq] at h
    obtain ⟨rfl, rfl⟩ := h
    exact ⟨Or.inl rfl, fun _ => rfl, by simp [hd], by simp [hd]⟩
  · rw [he] at h
    simp only [Prod.mk.injEq, Except.ok.injEq] at h
    obtain ⟨rfl, rfl⟩ := h
    exact ⟨Or.inl rfl, fun _ => rfl, fun _ _ => rfl, by simp [hsb]⟩
  · rw [he] at h
    simp only [Prod.mk.injEq, Except.ok.injEq] at h
    obtain ⟨rfl, rfl⟩ := h
    exact ⟨Or.inr rfl, by simp [hd], by simp [hsb], fun _ _ _ => rfl⟩

/-- C4, witness: the reward policy evaluated on a concrete call, a valid
action from the (non-terminated) initial state. -/
theorem step_reward_policy_witness :
    ((StepResult.mk none 1 false ()).reward = 1 ∨ (StepResult.mk none 1 false ()).reward = 0)
    ∧ ((StepResult.mk none 1 false ()).done = false → (StepResult.mk none 1 false ()).reward = 1)
    ∧ ((StepResult.mk none 1 false ()).done = true → initial_env.steps_beyond_done = none →
        (StepResult.mk none 1 false ()).reward = 1)
    ∧ (∀ n : ℕ, (StepResult.mk none 1 false ()).done = true →
        initial_env.steps_beyond_done = some n → (StepResult.mk none 1 false ()).reward = 0) :=
  step_reward_policy initial_env 0 (StepResult.mk none 1 false ()) initial_env rfl

/-- C5: the claim says `reset` fully resets all mutable episode state and
returns the new observation.  The code only assigns the freshly drawn
vector to `self.state` and returns `None`: on a terminated state (energy
`0`) the energy stays `0` (not `starting_energy`), the environment is still
terminated after the reset, a set post-terminal counter stays set, and the
call's value is `None`. -/
theorem reset_does_not_reinitialize :
    (reset sTerm zeroObs).2.current_energy = 0
    ∧ (reset sTerm zeroObs).2.current_energy ≠ starting_energy
    ∧ is_episode_terminated (reset sTerm zeroObs).2 = true
    ∧ (reset sPost zeroObs).2.steps_beyond_done = some 3
    ∧ (reset sTerm zeroObs).1 = () :=
  ⟨rfl, by decide, by decide, rfl, rfl⟩

/-- C6: `step` with an action outside `{0..7}` fails the `assert` (the
`Discrete(8)` membership test) before any effect, and the environment state
is left exactly as it was. -/
theorem step_invalid_action (s : EnvState) (a : ℤ) (h : ¬ (0 ≤ a ∧ a < 8)) :
    step s a = (Except.error StepError.invalidAction, s) := by
  rw [step, if_neg h]

/-- C6, witness: the out-of-range action `8` on the initial state. -/
theorem step_invalid_action_witness :
    step initial_env 8 = (Except.error StepError.invalidAction, initial_env) :=
  step_invalid_action initial_env 8 (by decide)

/-- C7: termination is absorbing.  If a `step` call returns `done = true`,
then after any further sequence of `step` calls (valid or not) a successful
`step` call still returns `done = true`. -/
theorem step_terminated_absorbing (s : EnvState) (a : ℤ) (res : StepResult)
    (h : (step s a).1 = Except.ok res) (hdone : res.done = true)
    (l : List ℤ) (b : ℤ) (res' : StepResult)
    (h' : (step (l.foldl stepState (stepState s a)) b).1 = Except.ok res') :
    res'.done = true := by
  have h1 := step_fst_ok_done s a res h
  have h2 := step_fst_ok_done _ b res' h'
  rw [h2, is_episode_terminated_foldl, is_episode_terminated_stepState, ← h1, hdone]

/-- C7, witness: a terminated state (energy `0`); the first call reports
`done = true`, and two calls later `done` is still `true`. -/
theorem step_terminated_absorbing_witness : (StepResult.mk none 0 true ()).done = true :=
  step_terminated_absorbing sTerm 0 (StepResult.mk none 1 true ()) rfl rfl
    [2] 7 (StepResult.mk none 0 true ()) rfl

/-- C8: `distance_from_light` is the Euclidean distance
`sqrt((x2 - x1)^2 + (y2 - y1)^2)` between `current_position` and
`light_source_pos`; equivalently, it is the metric-space distance between
the two points viewed in the Euclidean plane. -/
theorem distance_from_light_euclidean (s : EnvState) :
    distance_from_light s
      = Real.sqrt (((light_source_pos.1 : ℝ) - (s.current_position.1 : ℝ)) ^ 2
          + ((light_source_pos.2 : ℝ) - (s.current_position.2 : ℝ)) ^ 2)
    ∧ distance_from_light s = dist (toE2 s.current_position) (toE2 light_source_pos) := by
  constructor
  · unfold distance_from_light distance
    congr 1
    push_cast
    ring
  · unfold distance_from_light distance toE2
    simp only [EuclideanSpace.dist_eq, Fin.sum_univ_two]
    congr 1
    simp only [WithLp.equiv_symm_pi_apply, Real.dist_eq, sq_abs, Matrix.cons_val_zero,
      Matrix.cons_val_one, Matrix.head_cons]
    push_cast
    ring

/-- C9: a successful `step` call leaves `current_position`,
`current_energy` and the stored observation `self.state` unchanged (only
`steps_beyond_done` may change), and the observation it returns is exactly
the stored vector. -/
theorem step_frame (s : EnvState) (a : ℤ) (res : StepResult) (s' : EnvState)
    (h : step s a = (Except.ok res, s')) :
    s'.current_position = s.current_position
    ∧ s'.current_energy = s.current_energy
    ∧ s'.state = s.state
    ∧ res.observation = s.state := by
  have h2 : (step s a).2 = s' := by rw [h]
  have h1 : (step s a).1 = Except.ok res := by rw [h]
  refine ⟨?_, ?_, ?_, step_fst_ok_observation s a res h1⟩
  · rw [← h2, step_snd_position]
  · rw [← h2, step_snd_energy]
  · rw [← h2, step_snd_state]

/-- C9, witness: the frame property evaluated on a concrete successful
call, action `3` from the initial state. -/
theorem step_frame_witness :
    initial_env.current_position = initial_env.current_position
    ∧ initial_env.current_energy = initial_env.current_energy
    ∧ initial_env.state = initial_env.state
    ∧ (StepResult.mk none 1 false ()).observation = initial_env.state :=
  step_frame initial_env 3 (StepResult.mk none 1 false ()) initial_env rfl

/-- C10: `reset` returns `None`, assigns only the stored observation
`self.state` (to the freshly drawn vector), and leaves `current_position`,
`current_energy` and `steps_beyond_done` at their pre-call values. -/
theorem reset_frame (s : EnvState) (draws : Obs) :
    (reset s draws).1 = ()
    ∧ (reset s draws).2.current_position = s.current_position
    ∧ (reset s draws).2.current_energy = s.current_energy
    ∧ (reset s draws).2.steps_beyond_done = s.steps_beyond_done
    ∧ (reset s draws).2.state = some draws :=
  ⟨rfl, rfl, rfl, rfl, rfl⟩

end GymLight
